import Mathlib

/-!
Verification development for the DryRunovateReporter log-mining and
classification engine (`DryRunovateReporter.py`).

Embedding conventions:
* A compiled regular expression is modelled as an abstract matcher function
  stored in the configuration record.  `re.match(p, line)` used as a test
  becomes `String → Bool`; a match object whose named groups are read becomes
  `String → Option captures`, where the outer `Option` is match failure and
  each capture is itself an `Option String` (a group may fail to participate).
  For the general dry-run pattern the presence of a named group in the
  pattern text is tracked separately, because `match.group(name)` raises an
  `IndexError` when the pattern does not define the group at all.
* An open file handle traversed with `_get_next_line` is modelled as the list
  of not-yet-read raw lines together with the current `line` variable
  (`Option String`: `none` is end of file, and `_get_next_line` strips each
  line it returns).
* Python exceptions become constructors of an explicit error type, returned
  through `Except`; the constructor names follow the error taxonomy of the
  specification.
* `str.strip()` is implemented directly over the character list (ASCII
  whitespace at both ends), so that concrete runs reduce inside the kernel.
-/

namespace DryRunovate

/-- PR state constant `UNCHANGED_PR` from the source. -/
def UNCHANGED_PR : String := "UNCHANGED"

/-- PR state constant `UPDATED_PR` from the source. -/
def UPDATED_PR : String := "UPDATED"

/-- PR state constant `NEW_PR` from the source. -/
def NEW_PR : String := "NEW"

/-- PR state constant `DISCARDED_PR` from the source. -/
def DISCARDED_PR : String := "DISCARDED"

/-- PR state constant `SKIPPED_PR` from the source. -/
def SKIPPED_PR : String := "SKIPPED"

/-- PR state constant `ERROR_PR` from the source. -/
def ERROR_PR : String := "ERROR"

/-- PR state constant `PENDING_PR` from the source. -/
def PENDING_PR : String := "PENDING"

/-- PR state constant `AUTOMERGED_PR` from the source. -/
def AUTOMERGED_PR : String := "AUTOMERGED"

/-- PR state constant `UNKNOWN_PR` from the source. -/
def UNKNOWN_PR : String := "UNKNOWN"

/-- Errors raised by the engine.  `emptyLog`, `unterminatedSection` and the
two autoclosed errors are `LogFileParsingError` raise sites in the source,
`repositoryName` is the `ValueError` of `_extract_repository_name`, and
`noSuchGroup` is the `IndexError` Python raises when `match.group(name)` is
called for a group name the pattern does not define. -/
inductive Err where
  | emptyLog : Err
  | repositoryName : Err
  | unterminatedSection (repo : String) : Err
  | autoclosedOffsetMissing (offset : Nat) : Err
  | autoclosedTitleNotFound (offset : Nat) (line : String) : Err
  | noSuchGroup : Err
  | sectionBodyParse : Err
  deriving DecidableEq, Repr

/-- Configuration after construction (all placeholder substitution already
performed by `Config.__init__`).  Pattern fields carry the compiled matcher
semantics; names follow the source configuration fields.
`dry_run_info_pattern_general` yields the values of the three named groups
`repository_name`, `branch_name`, `info` of a successful `re.match`; the
three `general_has_*` flags record whether the pattern text defines the
respective named group at all (reading an undefined group raises).
`dry_run_info_pattern_autoclosed` yields the `repository_name` group,
`dry_run_info_autoclosed_pr_title_pattern` the `pr_title` group.
`repository_name_pattern` models `re.search(p, line)` followed by
`.group(1)`.  `timestamp_pattern` models `re.sub(p, "", line)`. -/
structure Config where
  branches_info_start_pattern : String → Bool
  branches_info_end_pattern : String → Bool
  repository_name_pattern : String → Option String
  timestamp_pattern : String → String
  dry_run_info_pattern_general : String → Option (Option String × Option String × Option String)
  general_has_repository_name : Bool
  general_has_branch_name : Bool
  general_has_info : Bool
  dry_run_info_pattern_autoclosed : String → Option (Option String)
  dry_run_info_autoclosed_pr_title_line_number : Nat
  dry_run_info_autoclosed_pr_title_pattern : String → Option (Option String)
  updated_branch_pattern : String → Bool
  created_branch_pattern : String → Bool
  commited_files_pattern : String → Bool

/-- Whitespace characters removed by Python `str.strip()` (the ASCII ones:
space, tab, newline, carriage return, vertical tab, form feed). -/
def isPyWhitespace (c : Char) : Bool :=
  c = ' ' || c = '\t' || c = '\n' || c = '\x0d' || c = '\x0b' || c = '\x0c'

/-- Python `line.strip()`: whitespace removed from both ends. -/
def stripLine (s : String) : String :=
  ⟨((s.data.dropWhile isPyWhitespace).reverse.dropWhile isPyWhitespace).reverse⟩

/-- The function `_get_next_line`: read the next raw line and strip it, or
report end of file.  The file handle is the list of unread raw lines; the
result pairs the value of the Python `line` variable with the new handle. -/
def getNextLine : List String → Option String × List String
  | [] => (none, [])
  | l :: ls => (some (stripLine l), ls)

/-- Python `"<br>".join(lines)`. -/
def joinBr (lines : List String) : String := String.intercalate ("<br>") lines

/-- The function `_get_dry_run_info`: all `info` fields of events whose
`repository` and `branch` equal the given names and whose `info` is present,
in encounter order. -/
def getDryRunInfo (repositoryName branchName : String) :
    List (Option String × Option String × Option String) → List String
  | [] => []
  | (repository, branch, info) :: rest =>
    if repository = some repositoryName ∧ branch = some branchName then
      match info with
      | some i => i :: getDryRunInfo repositoryName branchName rest
      | none => getDryRunInfo repositoryName branchName rest
    else
      getDryRunInfo repositoryName branchName rest

/-- The function `_done_state_drilldown`. -/
def doneStateDrilldown (config : Config) (dryRunInfo : List String) : String × String :=
  if dryRunInfo.length = 0 then
    (UNCHANGED_PR, "")
  else if dryRunInfo.any (fun info => config.updated_branch_pattern info) then
    (UPDATED_PR, "")
  else if dryRunInfo.any (fun info => config.created_branch_pattern info) then
    (NEW_PR, "")
  else if dryRunInfo.any (fun info => config.commited_files_pattern info) then
    (UNCHANGED_PR, "")
  else
    (UNKNOWN_PR, joinBr dryRunInfo)

/-- The function `_no_work_state_drilldown`. -/
def noWorkStateDrilldown (config : Config) (dryRunInfo : List String) : String × String :=
  if dryRunInfo.length = 0 then
    (UNCHANGED_PR, "")
  else
    if dryRunInfo.any (fun info => config.commited_files_pattern info) then
      (NEW_PR, "")
    else
      (UNKNOWN_PR, joinBr dryRunInfo)

/-- The function `_determine_pr_status`; the Python `match` statement on the
string `pr_result` becomes a chain of equality tests in order. -/
def determinePrStatus (prResult : String) (repositoryName branchName : String)
    (config : Config)
    (dryRunInfos : List (Option String × Option String × Option String)) :
    String × String :=
  let dryRunInfo := getDryRunInfo repositoryName branchName dryRunInfos
  if prResult = ("discarded") then
    (DISCARDED_PR, "PR would be discarded")
  else if prResult = ("already-existed") then
    (SKIPPED_PR, "There is a closed PR for this dependency update so Renovate skipped the recreation of the PR")
  else if prResult = ("not-scheduled") then
    (SKIPPED_PR, "PR is not scheduled for this repository")
  else if prResult = ("update-not-scheduled") then
    (SKIPPED_PR, "PR is not scheduled for this repository")
  else if prResult = ("pr-limit-reached") then
    (SKIPPED_PR, "PR limit reached for this repository")
  else if prResult = ("commit-limit-reached") then
    (SKIPPED_PR, "Commit limit reached for this repository")
  else if prResult = ("branch-limit-reached") then
    (SKIPPED_PR, "Branch limit reached for this repository")
  else if prResult = ("pr-edited") then
    (SKIPPED_PR, "PR has been manually edited so Renovate skipped any processing in order to not override any manual changes")
  else if prResult = ("error") then
    (ERROR_PR, joinBr dryRunInfo)
  else if prResult = ("pending") then
    (PENDING_PR, joinBr dryRunInfo)
  else if prResult = ("needs-pr-approval") then
    (PENDING_PR, joinBr dryRunInfo)
  else if prResult = ("needs-approval") then
    (PENDING_PR, joinBr dryRunInfo)
  else if prResult = ("no-work") then
    noWorkStateDrilldown config dryRunInfo
  else if prResult = ("done") then
    doneStateDrilldown config dryRunInfo
  else if prResult = ("pr-created") then
    (NEW_PR, "")
  else if prResult = ("rebase") then
    (UNCHANGED_PR, "PR would be rebased")
  else if prResult = ("automerged") then
    (AUTOMERGED_PR, "PR would be automerged")
  else
    (UNKNOWN_PR, "Unknown PR state<br>" ++ joinBr dryRunInfo)

/-- The recognized result codes of the fixed dispatch table in
`_determine_pr_status`. -/
def recognizedResultCodes : List String :=
  ["discarded", "already-existed", "not-scheduled", "update-not-scheduled",
   "pr-limit-reached", "commit-limit-reached", "branch-limit-reached",
   "pr-edited", "error", "pending", "needs-pr-approval", "needs-approval",
   "no-work", "done", "pr-created", "rebase", "automerged"]

/-- Reference definition following the claim wording for C6: the events are
filtered for exact equality on repository and branch and a present info
field, and all matching info values are kept in encounter order. -/
def selectedInfos (repositoryName branchName : String)
    (dryRunInfos : List (Option String × Option String × Option String)) :
    List String :=
  (dryRunInfos.filter
      (fun t => t.1 == some repositoryName && t.2.1 == some branchName && t.2.2.isSome)).filterMap
    (fun t => t.2.2)

theorem getDryRunInfo_eq_selectedInfos (repositoryName branchName : String)
    (dryRunInfos : List (Option String × Option String × Option String)) :
    getDryRunInfo repositoryName branchName dryRunInfos =
      selectedInfos repositoryName branchName dryRunInfos := by
  induction dryRunInfos with
  | nil => rfl
  | cons head rest ih =>
    obtain ⟨repository, branch, info⟩ := head
    by_cases h1 : repository = some repositoryName
    · by_cases h2 : branch = some branchName
      · subst h1; subst h2
        cases info <;>
          simp [getDryRunInfo, selectedInfos, List.filter_cons, ih]
      · have hb : (branch == some branchName) = false := beq_eq_false_iff_ne.mpr h2
        simp [getDryRunInfo, selectedInfos, List.filter_cons, h1, h2, hb, ih]
    · have hr : (repository == some repositoryName) = false := beq_eq_false_iff_ne.mpr h1
      simp [getDryRunInfo, selectedInfos, List.filter_cons, h1, hr, ih]

/-- C1: the done drilldown on result code "done" maps an empty info-line list
to UNCHANGED with empty detail; otherwise, in priority order, any line
matching the updated-branch pattern gives UPDATED, else any line matching the
created-branch pattern gives NEW, else any line matching the committed-files
pattern gives UNCHANGED, else UNKNOWN with all info lines joined as detail;
and a list with lines matching both the updated and the created patterns
always gives UPDATED, never NEW. -/
theorem done_drilldown_spec (config : Config) (infoLines : List String) :
    (infoLines = [] → doneStateDrilldown config infoLines = (UNCHANGED_PR, "")) ∧
    (infoLines ≠ [] → infoLines.any config.updated_branch_pattern = true →
      doneStateDrilldown config infoLines = (UPDATED_PR, "")) ∧
    (infoLines ≠ [] → infoLines.any config.updated_branch_pattern = false →
      infoLines.any config.created_branch_pattern = true →
      doneStateDrilldown config infoLines = (NEW_PR, "")) ∧
    (infoLines ≠ [] → infoLines.any config.updated_branch_pattern = false →
      infoLines.any config.created_branch_pattern = false →
      infoLines.any config.commited_files_pattern = true →
      doneStateDrilldown config infoLines = (UNCHANGED_PR, "")) ∧
    (infoLines ≠ [] → infoLines.any config.updated_branch_pattern = false →
      infoLines.any config.created_branch_pattern = false →
      infoLines.any config.commited_files_pattern = false →
      doneStateDrilldown config infoLines = (UNKNOWN_PR, joinBr infoLines)) ∧
    (infoLines.any config.updated_branch_pattern = true →
      infoLines.any config.created_branch_pattern = true →
      doneStateDrilldown config infoLines = (UPDATED_PR, "") ∧
        (doneStateDrilldown config infoLines).1 ≠ NEW_PR) := by
  refine ⟨?_, ?_, ?_, ?_, ?_, ?_⟩
  · intro h; subst h; rfl
  · intro hne hupd
    have hlen : ¬ infoLines.length = 0 := by
      simpa [List.length_eq_zero] using hne
    simp [doneStateDrilldown, hlen, hupd]
  · intro hne hupd hcre
    have hlen : ¬ infoLines.length = 0 := by
      simpa [List.length_eq_zero] using hne
    simp [doneStateDrilldown, hlen, hupd, hcre]
  · intro hne hupd hcre hcom
    have hlen : ¬ infoLines.length = 0 := by
      simpa [List.length_eq_zero] using hne
    simp [doneStateDrilldown, hlen, hupd, hcre, hcom]
  · intro hne hupd hcre hcom
    have hlen : ¬ infoLines.length = 0 := by
      simpa [List.length_eq_zero] using hne
    simp [doneStateDrilldown, hlen, hupd, hcre, hcom]
  · intro hupd hcre
    have hne : infoLines ≠ [] := by
      intro h; subst h; simp at hupd
    have hlen : ¬ infoLines.length = 0 := by
      simpa [List.length_eq_zero] using hne
    constructor
    · simp [doneStateDrilldown, hlen, hupd]
    · simp [doneStateDrilldown, hlen, hupd, UPDATED_PR, NEW_PR]

/-- Concrete instantiation of `done_drilldown_spec`: a configuration whose
updated pattern matches "u" and created pattern matches "c", applied to the
list ["c", "u"], which contains a line matching each of the two patterns. -/
def doneWitnessConfig : Config where
  branches_info_start_pattern := fun _ => false
  branches_info_end_pattern := fun _ => false
  repository_name_pattern := fun _ => none
  timestamp_pattern := fun s => s
  dry_run_info_pattern_general := fun _ => none
  general_has_repository_name := true
  general_has_branch_name := true
  general_has_info := true
  dry_run_info_pattern_autoclosed := fun _ => none
  dry_run_info_autoclosed_pr_title_line_number := 0
  dry_run_info_autoclosed_pr_title_pattern := fun _ => none
  updated_branch_pattern := fun s => s == ("u")
  created_branch_pattern := fun s => s == ("c")
  commited_files_pattern := fun s => s == ("f")

theorem done_drilldown_spec_witness :
    (["c", "u"].any doneWitnessConfig.updated_branch_pattern = true) ∧
    (["c", "u"].any doneWitnessConfig.created_branch_pattern = true) ∧
    doneStateDrilldown doneWitnessConfig ["c", "u"] = (UPDATED_PR, "") := by
  refine ⟨by decide, by decide, ?_⟩
  exact ((done_drilldown_spec doneWitnessConfig ["c", "u"]).2.2.2.2.2
    (by decide) (by decide)).1

/-- C6: classify on result code "error" returns state ERROR with detail equal
to all info fields of events whose repository and branch exactly equal the
given pair and whose info field is present, joined in encounter order with
the fixed separator "<br>"; all matches are included. -/
theorem error_status_detail (config : Config) (repositoryName branchName : String)
    (dryRunInfos : List (Option String × Option String × Option String)) :
    determinePrStatus ("error") repositoryName branchName config dryRunInfos =
      (ERROR_PR,
        String.intercalate ("<br>") (selectedInfos repositoryName branchName dryRunInfos)) := by
  rw [← getDryRunInfo_eq_selectedInfos]
  rfl

/-- C9: every result code outside the fixed table yields UNKNOWN with a
detail string that is the fixed "Unknown PR state" marker followed by the
joined info lines. -/
theorem unknown_status_detail (config : Config) (prResult : String)
    (repositoryName branchName : String)
    (dryRunInfos : List (Option String × Option String × Option String))
    (h : prResult ∉ recognizedResultCodes) :
    determinePrStatus prResult repositoryName branchName config dryRunInfos =
      (UNKNOWN_PR,
        "Unknown PR state<br>" ++
          joinBr (getDryRunInfo repositoryName branchName dryRunInfos)) := by
  simp only [recognizedResultCodes, List.mem_cons, List.mem_singleton, not_or] at h
  obtain ⟨h1, h2, h3, h4, h5, h6, h7, h8, h9, h10, h11, h12, h13, h14, h15, h16, h17⟩ := h
  simp [determinePrStatus, h1, h2, h3, h4, h5, h6, h7, h8, h9, h10, h11, h12, h13,
    h14, h15, h16, h17]

theorem unknown_status_detail_witness :
    ("someWeirdStatus" ∉ recognizedResultCodes) ∧
    determinePrStatus ("someWeirdStatus") ("r") ("b") doneWitnessConfig
        [(some ("r"), some ("b"), some ("x"))] =
      (UNKNOWN_PR, "Unknown PR state<br>x") := by
  refine ⟨by decide, ?_⟩
  exact unknown_status_detail doneWitnessConfig ("someWeirdStatus") ("r") ("b")
    [(some ("r"), some ("b"), some ("x"))] (by decide)

/-- Python dict assignment `relevant_sections[repo] = v`: when the key is
already present its value is replaced in place (the key keeps its position),
otherwise the pair is appended.  The mapping is modelled as the association
list in insertion order. -/
def dictInsert (d : List (String × List String)) (k : String) (v : List String) :
    List (String × List String) :=
  if d.any (fun p => p.1 == k) then
    d.map (fun p => if p.1 == k then (k, v) else p)
  else
    d ++ [(k, v)]

/-- End-of-scan bookkeeping of `_find_branches_lists` (the `else` clause of
the outer `while` loop): with no repository ever identified only a warning is
logged and the sections are returned; otherwise, when the last identified
repository is not a key of the sealed mapping, the unterminated-section
error is raised. -/
def finishScan (sections : List (String × List String)) (repositoryName : Option String) :
    Except Err (List (String × List String)) :=
  match repositoryName with
  | none => .ok sections
  | some repo =>
    if sections.any (fun p => p.1 == repo) then .ok sections
    else .error (.unterminatedSection repo)

/-- Result of one iteration of the scanning loop body of
`_find_branches_lists`: either the loop stops with a final result (the
current line is falsy, or a fatal error is raised), or it continues with
updated sections, repository name and section state. -/
inductive StepOut where
  | halt (res : Except Err (List (String × List String))) : StepOut
  | next (sections : List (String × List String)) (repositoryName : Option String)
      (state : Option (String × List String)) : StepOut

/-- One iteration of the scanning loop of `_find_branches_lists` on the
current line `l`.  `state` is `none` outside a section and `some (repo, acc)`
inside the section of `repo` with accumulated lines `acc`; `repositoryName`
is the Python variable of that name (the last identified repository). -/
def findStep (config : Config) (l : String)
    (sections : List (String × List String)) (repositoryName : Option String)
    (state : Option (String × List String)) : StepOut :=
  if l = "" then .halt (finishScan sections repositoryName)
  else
    match state with
    | none =>
      if config.branches_info_start_pattern l then
        match config.repository_name_pattern l with
        | none => .halt (.error .repositoryName)
        | some repo => .next sections (some repo) (some (repo, []))
      else .next sections repositoryName none
    | some (repo, acc) =>
      if config.branches_info_end_pattern l then
        .next (dictInsert sections repo acc) repositoryName none
      else .next sections repositoryName (some (repo, acc ++ [l]))

/-- The scanning loops of `_find_branches_lists`: iterate `findStep` over the
stripped lines.  The single Python loop-exit point (the `line` variable
becoming `None` at end of file) is the first equation: the end-of-scan
bookkeeping runs on the components the last step produced. -/
def findLoop (config : Config) :
    String → List String → List (String × List String) → Option String →
    Option (String × List String) → Except Err (List (String × List String))
  | l, [], sections, repositoryName, state =>
    match findStep config l sections repositoryName state with
    | .halt res => res
    | .next sections2 repositoryName2 _ => finishScan sections2 repositoryName2
  | l, x :: xs, sections, repositoryName, state =>
    match findStep config l sections repositoryName state with
    | .halt res => res
    | .next sections2 repositoryName2 state2 =>
      findLoop config (stripLine x) xs sections2 repositoryName2 state2

/-- The function `_find_branches_lists` on the list of raw log lines: an
exhausted or immediately blank first read is the empty-log error, otherwise
the two-state scan runs from the first line. -/
def findBranchesLists (config : Config) (rawLines : List String) :
    Except Err (List (String × List String)) :=
  match rawLines with
  | [] => .error .emptyLog
  | x :: xs =>
    if stripLine x = "" then .error .emptyLog
    else findLoop config (stripLine x) xs [] none none

/-- Reference step for C2, following the claim wording: a line either stops
the scan (`none`), or continues, emitting the repository identifiers whose
sections are sealed at this line and carrying the repository of the still
open section.  At a start line whose repository extraction fails the engine
aborts, so the reference scan (only compared against successful runs) stops
there as well. -/
def sealedStep (config : Config) (l : String) (pending : Option String) :
    Option (List String × Option String) :=
  if l = "" then none
  else
    match pending with
    | none =>
      if config.branches_info_start_pattern l then
        match config.repository_name_pattern l with
        | none => none
        | some repo => some ([], some repo)
      else some ([], none)
    | some repo =>
      if config.branches_info_end_pattern l then some ([repo], none)
      else some ([], some repo)

/-- Reference definition following the claim wording of C2: the repository
identifiers extracted at start-marker lines that are followed by a matching
end-marker line, in scan order. -/
def sealedLoop (config : Config) : String → List String → Option String → List String
  | l, [], pending =>
    match sealedStep config l pending with
    | none => []
    | some (emit, _) => emit
  | l, x :: xs, pending =>
    match sealedStep config l pending with
    | none => []
    | some (emit, pending2) => emit ++ sealedLoop config (stripLine x) xs pending2

/-- Reference definition for C2, top level: the sealed repository
identifiers of a whole log. -/
def sealedRepos (config : Config) (rawLines : List String) : List String :=
  match rawLines with
  | [] => []
  | x :: xs =>
    if stripLine x = "" then []
    else sealedLoop config (stripLine x) xs none

theorem finishScan_ok (sections : List (String × List String))
    (repositoryName : Option String) (m : List (String × List String))
    (h : finishScan sections repositoryName = .ok m) : m = sections := by
  cases repositoryName with
  | none =>
    simp only [finishScan] at h
    exact (Except.ok.inj h).symm
  | some repo =>
    simp only [finishScan] at h
    split at h
    · exact (Except.ok.inj h).symm
    · cases h

theorem finishScan_error (sections : List (String × List String))
    (repositoryName : Option String) (e : Err)
    (h : finishScan sections repositoryName = .error e) :
    ∃ repo, e = .unterminatedSection repo := by
  cases repositoryName with
  | none =>
    simp only [finishScan] at h
    cases h
  | some repo =>
    simp only [finishScan] at h
    split at h
    · cases h
    · exact ⟨repo, (Except.error.inj h).symm⟩

theorem mapUpdate_any (d : List (String × List String)) (k : String)
    (v : List String) (r : String) :
    (d.map (fun p => if p.1 == k then (k, v) else p)).any (fun p => p.1 == r) =
      d.any (fun p => p.1 == r) := by
  induction d with
  | nil => rfl
  | cons p d ih =>
    simp only [List.map_cons, List.any_cons, ih]
    by_cases h : p.1 = k
    · simp [beq_iff_eq.mpr h, h]
    · simp [beq_eq_false_iff_ne.mpr h]

theorem dictInsert_any (d : List (String × List String)) (k : String)
    (v : List String) (r : String) :
    (dictInsert d k v).any (fun p => p.1 == r) =
      (d.any (fun p => p.1 == r) || (k == r)) := by
  unfold dictInsert
  by_cases hk : d.any (fun p => p.1 == k) = true
  · rw [if_pos hk, mapUpdate_any]
    by_cases hkr : k = r
    · subst hkr
      simp [hk]
    · simp [beq_eq_false_iff_ne.mpr hkr]
  · rw [if_neg hk]
    simp [List.any_append]

/-- Correspondence between one scanning step and one reference step: either
both stop (and a stopping step only ever returns the current sections or one
of the two loop-level errors), or both continue, with the emitted sealed
identifiers accounting exactly for the key-set growth. -/
theorem step_correspondence (config : Config) (l : String)
    (sections : List (String × List String)) (repositoryName : Option String)
    (state : Option (String × List String)) :
    (∃ res, findStep config l sections repositoryName state = .halt res ∧
       sealedStep config l (state.map Prod.fst) = none ∧
       (∀ m, res = .ok m → m = sections) ∧
       (∀ e, res = .error e →
         e = .repositoryName ∨ ∃ repo, e = .unterminatedSection repo)) ∨
    (∃ sections2 repositoryName2 state2 emit,
       findStep config l sections repositoryName state = .next sections2 repositoryName2 state2 ∧
       sealedStep config l (state.map Prod.fst) = some (emit, state2.map Prod.fst) ∧
       ∀ r, sections2.any (fun p => p.1 == r) =
         (sections.any (fun p => p.1 == r) || emit.any (fun x => x == r))) := by
  by_cases hl : l = ""
  · left
    refine ⟨finishScan sections repositoryName, ?_, ?_, ?_, ?_⟩
    · simp [findStep, hl]
    · simp [sealedStep, hl]
    · intro m h
      exact finishScan_ok _ _ _ h
    · intro e h
      exact Or.inr (finishScan_error _ _ _ h)
  · cases state with
    | none =>
      by_cases hs : config.branches_info_start_pattern l = true
      · cases hrepo : config.repository_name_pattern l with
        | none =>
          left
          refine ⟨.error .repositoryName, ?_, ?_, ?_, ?_⟩
          · simp [findStep, hl, hs, hrepo]
          · simp [sealedStep, hl, hs, hrepo]
          · intro m h
            cases h
          · intro e h
            exact Or.inl (Except.error.inj h).symm
        | some repo =>
          right
          refine ⟨sections, some repo, some (repo, []), [], ?_, ?_, ?_⟩
          · simp [findStep, hl, hs, hrepo]
          · simp [sealedStep, hl, hs, hrepo]
          · intro r
            simp
      · right
        refine ⟨sections, repositoryName, none, [], ?_, ?_, ?_⟩
        · simp [findStep, hl, hs]
        · simp [sealedStep, hl, hs]
        · intro r
          simp
    | some ra =>
      obtain ⟨repo, acc⟩ := ra
      by_cases he : config.branches_info_end_pattern l = true
      · right
        refine ⟨dictInsert sections repo acc, repositoryName, none, [repo], ?_, ?_, ?_⟩
        · simp [findStep, hl, he]
        · simp [sealedStep, hl, he]
        · intro r
          simp [dictInsert_any]
      · right
        refine ⟨sections, repositoryName, some (repo, acc ++ [l]), [], ?_, ?_, ?_⟩
        · simp [findStep, hl, he]
        · simp [sealedStep, hl, he]
        · intro r
          simp

theorem findLoop_error (config : Config) (rem : List String) :
    ∀ (l : String) (sections : List (String × List String))
      (repositoryName : Option String) (state : Option (String × List String)) (e : Err),
      findLoop config l rem sections repositoryName state = .error e →
      e = .repositoryName ∨ ∃ repo, e = .unterminatedSection repo := by
  induction rem with
  | nil =>
    intro l sections repositoryName state e h
    rcases step_correspondence config l sections repositoryName state with
      ⟨res, hstep, _, _, herr⟩ | ⟨s2, rn2, st2, emit, hstep, _, _⟩
    · simp only [findLoop, hstep] at h
      exact herr e h
    · simp only [findLoop, hstep] at h
      exact Or.inr (finishScan_error _ _ _ h)
  | cons x xs ih =>
    intro l sections repositoryName state e h
    rcases step_correspondence config l sections repositoryName state with
      ⟨res, hstep, _, _, herr⟩ | ⟨s2, rn2, st2, emit, hstep, _, _⟩
    · simp only [findLoop, hstep] at h
      exact herr e h
    · simp only [findLoop, hstep] at h
      exact ih _ _ _ _ _ h

theorem findLoop_ok_keys (config : Config) (rem : List String) :
    ∀ (l : String) (sections : List (String × List String))
      (repositoryName : Option String) (state : Option (String × List String))
      (m : List (String × List String)),
      findLoop config l rem sections repositoryName state = .ok m →
      ∀ r, m.any (fun p => p.1 == r) =
        (sections.any (fun p => p.1 == r) ||
          (sealedLoop config l rem (state.map Prod.fst)).any (fun x => x == r)) := by
  induction rem with
  | nil =>
    intro l sections repositoryName state m h r
    rcases step_correspondence config l sections repositoryName state with
      ⟨res, hstep, hseal, hok, _⟩ | ⟨s2, rn2, st2, emit, hstep, hseal, hkeys⟩
    · simp only [findLoop, hstep] at h
      simp only [sealedLoop, hseal]
      rw [hok m h]
      simp
    · simp only [findLoop, hstep] at h
      simp only [sealedLoop, hseal]
      rw [finishScan_ok _ _ _ h]
      exact hkeys r
  | cons x xs ih =>
    intro l sections repositoryName state m h r
    rcases step_correspondence config l sections repositoryName state with
      ⟨res, hstep, hseal, hok, _⟩ | ⟨s2, rn2, st2, emit, hstep, hseal, hkeys⟩
    · simp only [findLoop, hstep] at h
      simp only [sealedLoop, hseal]
      rw [hok m h]
      simp
    · simp only [findLoop, hstep] at h
      simp only [sealedLoop, hseal]
      rw [ih _ _ _ _ _ h r, List.any_append, hkeys r, Bool.or_assoc]

/-- C2: section extraction either returns a mapping whose key set equals
exactly the set of repository identifiers extracted at start-marker lines
that are followed by a matching end-marker line (the reference scan
`sealedRepos`), or fails with exactly one of the three errors EmptyLogError,
RepositoryNameError, UnterminatedSectionError; no other outcome is
possible. -/
theorem findBranchesLists_outcomes (config : Config) (rawLines : List String) :
    (∃ m, findBranchesLists config rawLines = .ok m ∧
        ∀ r, m.any (fun p => p.1 == r) =
          (sealedRepos config rawLines).any (fun x => x == r)) ∨
    findBranchesLists config rawLines = .error .emptyLog ∨
    findBranchesLists config rawLines = .error .repositoryName ∨
    ∃ repo, findBranchesLists config rawLines = .error (.unterminatedSection repo) := by
  cases rawLines with
  | nil =>
    right; left
    rfl
  | cons x xs =>
    by_cases hx : stripLine x = ""
    · right; left
      simp [findBranchesLists, hx]
    · cases hres : findLoop config (stripLine x) xs [] none none with
      | ok m =>
        left
        refine ⟨m, ?_, ?_⟩
        · simp [findBranchesLists, hx, hres]
        · intro r
          have hkeys := findLoop_ok_keys config xs (stripLine x) [] none none m hres r
          simpa [sealedRepos, hx] using hkeys
      | error e =>
        have hcls := findLoop_error config xs (stripLine x) [] none none e hres
        have hval : findBranchesLists config (x :: xs) = .error e := by
          simp [findBranchesLists, hx, hres]
        rcases hcls with h1 | ⟨repo, h2⟩
        · right; right; left
          rw [hval, h1]
        · right; right; right
          exact ⟨repo, by rw [hval, h2]⟩

/-- Scanning forward from inside a section: `true` when the scan runs out of
input (or reaches a blank line) without ever matching the end pattern, that
is, the open section has no corresponding end marker before end of input. -/
def endsUnterminated (config : Config) : String → List String → Bool
  | l, [] =>
    if l = "" then true
    else !(config.branches_info_end_pattern l)
  | l, x :: xs =>
    if l = "" then true
    else if config.branches_info_end_pattern l then false
    else endsUnterminated config (stripLine x) xs

/-- C4 amended: when a section for `repo` is open and no end-marker line
follows before end of input, the scan fails with the unterminated-section
error naming `repo` exactly when no sealed section with that repository name
exists; when an earlier section of the same repository name was sealed, the
unterminated section is silently dropped and the scan succeeds. -/
theorem unterminated_section_outcome (config : Config) (rem : List String) :
    ∀ (l : String) (sections : List (String × List String))
      (repo : String) (acc : List String),
      endsUnterminated config l rem = true →
      findLoop config l rem sections (some repo) (some (repo, acc)) =
        (if sections.any (fun p => p.1 == repo) then .ok sections
         else .error (.unterminatedSection repo)) := by
  induction rem with
  | nil =>
    intro l sections repo acc h
    by_cases hl : l = ""
    · simp [findLoop, findStep, finishScan, hl]
    · simp only [endsUnterminated, if_neg hl, Bool.not_eq_true',
        Bool.not_eq_eq_eq_not] at h
      have he : config.branches_info_end_pattern l = false := by
        simpa using h
      simp [findLoop, findStep, finishScan, hl, he]
  | cons x xs ih =>
    intro l sections repo acc h
    by_cases hl : l = ""
    · simp [findLoop, findStep, finishScan, hl]
    · simp only [endsUnterminated, if_neg hl] at h
      by_cases he : config.branches_info_end_pattern l = true
      · rw [if_pos he] at h
        cases h
      · rw [if_neg he] at h
        have he2 : config.branches_info_end_pattern l = false := by
          simpa using he
        simp only [findLoop, findStep, if_neg hl, he2, Bool.false_eq_true, if_false]
        exact ih _ _ _ _ h

/-- Configuration for the C4 and C2-adjacent concrete runs: the start
pattern matches exactly "S", the end pattern exactly "E", and the repository
name extracted from any start line is "X". -/
def sectionConfigC4 : Config where
  branches_info_start_pattern := fun l => l == ("S")
  branches_info_end_pattern := fun l => l == ("E")
  repository_name_pattern := fun _ => some ("X")
  timestamp_pattern := fun s => s
  dry_run_info_pattern_general := fun _ => none
  general_has_repository_name := true
  general_has_branch_name := true
  general_has_info := true
  dry_run_info_pattern_autoclosed := fun _ => none
  dry_run_info_autoclosed_pr_title_line_number := 0
  dry_run_info_autoclosed_pr_title_pattern := fun _ => none
  updated_branch_pattern := fun _ => false
  created_branch_pattern := fun _ => false
  commited_files_pattern := fun _ => false

/-- C4 counterexample: the log opens a section for "X", seals it, then opens
a second section for "X" that is never terminated.  The claim demands an
UnterminatedSectionError naming "X" even in this situation, but the scan
returns the sealed mapping successfully, because the unterminated-section
check only asks whether the last identified repository is a key of the
sealed mapping. -/
theorem unterminated_section_counterexample :
    findBranchesLists sectionConfigC4 ["S", "b", "E", "S", "c"] =
      .ok [(("X"), ["b"])] := by
  rfl

theorem unterminated_section_outcome_witness :
    endsUnterminated sectionConfigC4 ("c") [] = true ∧
    findLoop sectionConfigC4 ("c") [] [] (some ("X")) (some (("X"), ["b"])) =
      .error (.unterminatedSection ("X")) := by
  refine ⟨by decide, ?_⟩
  have h := unterminated_section_outcome sectionConfigC4 [] ("c") [] ("X") ["b"]
    (by decide)
  simpa using h

/-- The `for _ in range(n)` advance in
`_extract_and_process_autoclosed_dry_run_infos`: starting from the current
line and file handle, read the next (stripped) line `n` times. -/
def advanceN : Nat → Option String × List String → Option String × List String
  | 0, s => s
  | n + 1, (_, rem) => advanceN n (getNextLine rem)

/-- The scanning loop of `_extract_and_process_autoclosed_dry_run_infos`.
`fuel` bounds the number of loop iterations, `none` meaning the bound was
exhausted: with offset 0 the Python loop genuinely does not terminate when a
line matches both the marker and the title pattern, so the embedding is
fuel-indexed.  On a successful title match scanning resumes at the offset
line itself (the loop re-tests it against the marker pattern). -/
def extractAutoclosedLoop (config : Config) :
    Nat → Option String → List String → List (Option String × Option String) →
    Option (Except Err (List (Option String × Option String)))
  | 0, _, _, _ => none
  | fuel + 1, line, rem, acc =>
    match line with
    | none => some (.ok acc)
    | some l =>
      if l = "" then some (.ok acc)
      else
        match config.dry_run_info_pattern_autoclosed l with
        | none =>
          extractAutoclosedLoop config fuel (getNextLine rem).1 (getNextLine rem).2 acc
        | some repositoryName =>
          match advanceN config.dry_run_info_autoclosed_pr_title_line_number (some l, rem) with
          | (none, _) =>
            some (.error
              (.autoclosedOffsetMissing config.dry_run_info_autoclosed_pr_title_line_number))
          | (some l2, rem2) =>
            match config.dry_run_info_autoclosed_pr_title_pattern l2 with
            | none =>
              some (.error
                (.autoclosedTitleNotFound config.dry_run_info_autoclosed_pr_title_line_number l2))
            | some prTitle =>
              extractAutoclosedLoop config fuel (some l2) rem2
                (acc ++ [(repositoryName, prTitle)])

/-- The function `_extract_and_process_autoclosed_dry_run_infos` on the raw
log lines, with the given iteration bound. -/
def extractAutoclosedDryRunInfos (config : Config) (fuel : Nat) (rawLines : List String) :
    Option (Except Err (List (Option String × Option String))) :=
  extractAutoclosedLoop config fuel (getNextLine rawLines).1 (getNextLine rawLines).2 []

theorem advanceN_none (n : Nat) : advanceN n (none, ([] : List String)) = (none, []) := by
  induction n with
  | zero => rfl
  | succ n ih => simpa [advanceN, getNextLine] using ih

/-- The line reached by the offset advance is the line `n` positions forward
from the current line (position 0 being the current line itself), within the
stripped view of the input. -/
theorem advanceN_fst (n : Nat) : ∀ (l : String) (rem : List String),
    (advanceN n (some l, rem)).1 = (l :: rem.map stripLine).get? n := by
  induction n with
  | zero =>
    intro l rem
    rfl
  | succ n ih =>
    intro l rem
    cases rem with
    | nil =>
      simp [advanceN, getNextLine, advanceN_none]
    | cons x xs =>
      simpa [advanceN, getNextLine] using ih (stripLine x) xs

/-- C5: at a marker match the extractor examines the line N positions forward
from the marker line (N the configured offset, the marker line itself being
position 0): if that line does not exist the extractor fails with the
offset-missing error identifying N; if it exists but the title pattern does
not match it the extractor fails with the title-not-found error carrying N
and that literal line; otherwise the (repository, title) pair is appended to
the result, in encounter order, and scanning resumes. -/
theorem autoclosed_match_outcome (config : Config) (fuel : Nat) (l : String)
    (rem : List String) (acc : List (Option String × Option String))
    (repositoryName : Option String)
    (hl : l ≠ "")
    (hm : config.dry_run_info_pattern_autoclosed l = some repositoryName) :
    ((l :: rem.map stripLine).get? config.dry_run_info_autoclosed_pr_title_line_number
        = none →
      extractAutoclosedLoop config (fuel + 1) (some l) rem acc =
        some (.error
          (.autoclosedOffsetMissing config.dry_run_info_autoclosed_pr_title_line_number))) ∧
    (∀ l2,
      (l :: rem.map stripLine).get? config.dry_run_info_autoclosed_pr_title_line_number
          = some l2 →
      (config.dry_run_info_autoclosed_pr_title_pattern l2 = none →
        extractAutoclosedLoop config (fuel + 1) (some l) rem acc =
          some (.error
            (.autoclosedTitleNotFound config.dry_run_info_autoclosed_pr_title_line_number l2))) ∧
      (∀ prTitle, config.dry_run_info_autoclosed_pr_title_pattern l2 = some prTitle →
        extractAutoclosedLoop config (fuel + 1) (some l) rem acc =
          extractAutoclosedLoop config fuel (some l2)
            (advanceN config.dry_run_info_autoclosed_pr_title_line_number (some l, rem)).2
            (acc ++ [(repositoryName, prTitle)]))) := by
  have hadv := advanceN_fst config.dry_run_info_autoclosed_pr_title_line_number l rem
  rcases hA : advanceN config.dry_run_info_autoclosed_pr_title_line_number (some l, rem)
    with ⟨l1, rem2⟩
  have h1 : l1 =
      (l :: rem.map stripLine).get? config.dry_run_info_autoclosed_pr_title_line_number := by
    rw [← hadv, hA]
  constructor
  · intro hnone
    have hln : l1 = none := h1.trans hnone
    subst hln
    simp [extractAutoclosedLoop, hl, hm, hA]
  · intro l2 hsome
    have hls : l1 = some l2 := h1.trans hsome
    subst hls
    constructor
    · intro htit
      simp [extractAutoclosedLoop, hl, hm, hA, htit]
    · intro prTitle htit
      simp [extractAutoclosedLoop, hl, hm, hA, htit]

/-- Configuration for the C5 concrete run: offset 1, the marker pattern
matches exactly "M" capturing "r", the title pattern matches exactly "T"
capturing "t". -/
def autoclosedConfigC5 : Config :=
  { sectionConfigC4 with
    dry_run_info_pattern_autoclosed :=
      fun l => if l == ("M") then some (some ("r")) else none,
    dry_run_info_autoclosed_pr_title_line_number := 1,
    dry_run_info_autoclosed_pr_title_pattern :=
      fun l => if l == ("T") then some (some ("t")) else none }

theorem autoclosed_match_outcome_witness :
    autoclosedConfigC5.dry_run_info_pattern_autoclosed ("M") = some (some ("r")) ∧
    extractAutoclosedLoop autoclosedConfigC5 2 (some ("M")) ["T"] [] =
      extractAutoclosedLoop autoclosedConfigC5 1 (some ("T"))
        (advanceN 1 (some ("M"), ["T"])).2 [(some ("r"), some ("t"))] := by
  refine ⟨rfl, ?_⟩
  have h := ((autoclosed_match_outcome autoclosedConfigC5 1 ("M") ["T"] []
    (some ("r")) (by decide) rfl).2 ("T") rfl).2 (some ("t")) rfl
  simpa using h

/-- Configuration for the C3 concrete run: offset 0, the marker pattern
matches exactly "MARK" capturing "repo", the title pattern matches exactly
"TITLE ok" capturing "ok". -/
def autoclosedConfigC3 : Config :=
  { sectionConfigC4 with
    dry_run_info_pattern_autoclosed :=
      fun l => if l == ("MARK") then some (some ("repo")) else none,
    dry_run_info_autoclosed_pr_title_line_number := 0,
    dry_run_info_autoclosed_pr_title_pattern :=
      fun l => if l == ("TITLE ok") then some (some ("ok")) else none }

/-- C3 counterexample: with offset 0 and the log ["MARK", "TITLE ok"], the
marker line "MARK" matches.  The claim says the title pattern is tested
against the immediate successor of the marker line, "TITLE ok" (which matches, so
extraction would succeed); the code instead tests the marker line itself and
fails with the title-not-found error carrying the marker line. -/
theorem autoclosed_offset_zero_counterexample :
    extractAutoclosedDryRunInfos autoclosedConfigC3 3 ["MARK", "TITLE ok"] =
      some (.error (.autoclosedTitleNotFound 0 ("MARK"))) := by
  rfl

/-- C3 amended: with offset 0 the extractor tests the marker line itself
against the title pattern, not its immediate successor (offset 1 reads the
immediate successor); in general it advances exactly N lines forward from
the marker line, the marker line being the line reached by advancing zero
lines. -/
theorem autoclosed_offset_zero_tests_marker (config : Config) (fuel : Nat)
    (l : String) (rem : List String) (acc : List (Option String × Option String))
    (repositoryName : Option String)
    (hoff : config.dry_run_info_autoclosed_pr_title_line_number = 0)
    (hl : l ≠ "")
    (hm : config.dry_run_info_pattern_autoclosed l = some repositoryName) :
    extractAutoclosedLoop config (fuel + 1) (some l) rem acc =
      (match config.dry_run_info_autoclosed_pr_title_pattern l with
       | none => some (.error (.autoclosedTitleNotFound 0 l))
       | some prTitle =>
         extractAutoclosedLoop config fuel (some l) rem
           (acc ++ [(repositoryName, prTitle)])) := by
  cases ht : config.dry_run_info_autoclosed_pr_title_pattern l with
  | none => simp [extractAutoclosedLoop, advanceN, hl, hm, ht, hoff]
  | some prTitle => simp [extractAutoclosedLoop, advanceN, hl, hm, ht, hoff]

theorem autoclosed_offset_zero_tests_marker_witness :
    extractAutoclosedLoop autoclosedConfigC3 2 (some ("MARK")) ["TITLE ok"] [] =
      some (.error (.autoclosedTitleNotFound 0 ("MARK"))) := by
  have h := autoclosed_offset_zero_tests_marker autoclosedConfigC3 1 ("MARK")
    ["TITLE ok"] [] (some ("repo")) rfl (by decide) rfl
  exact h.trans rfl

/-- Python `match.group(name)` for the general pattern: returns the captured
value when the pattern defines the named group, raises IndexError (modelled
as `noSuchGroup`) when it does not. -/
def groupGet (has : Bool) (capture : Option String) : Except Err (Option String) :=
  if has then .ok capture else .error .noSuchGroup

/-- Result of one iteration of the loop body of
`_extract_general_dry_run_infos` on the current line: the loop stops at a
falsy line, fails when a named group is undefined, records an event on a
match, and skips a non-matching line. -/
inductive GeneralStep where
  | stop : GeneralStep
  | fail (e : Err) : GeneralStep
  | event (ev : Option String × Option String × Option String) : GeneralStep
  | skip : GeneralStep

/-- One iteration of the loop body of `_extract_general_dry_run_infos`: the
three named groups are read in source order (repository, then branch, then
info). -/
def generalStep (config : Config) (l : String) : GeneralStep :=
  if l = "" then .stop
  else
    match config.dry_run_info_pattern_general l with
    | none => .skip
    | some (rcap, bcap, icap) =>
      match groupGet config.general_has_repository_name rcap with
      | .error e => .fail e
      | .ok repositoryName =>
        match groupGet config.general_has_branch_name bcap with
        | .error e => .fail e
        | .ok branchName =>
          match groupGet config.general_has_info icap with
          | .error e => .fail e
          | .ok info => .event (repositoryName, branchName, info)

/-- The scanning loop of `_extract_general_dry_run_infos`: iterate
`generalStep` over the stripped lines, appending events in encounter
order. -/
def extractGeneralLoop (config : Config) :
    String → List String → List (Option String × Option String × Option String) →
    Except Err (List (Option String × Option String × Option String))
  | l, [], acc =>
    match generalStep config l with
    | .stop => .ok acc
    | .fail e => .error e
    | .event ev => .ok (acc ++ [ev])
    | .skip => .ok acc
  | l, x :: xs, acc =>
    match generalStep config l with
    | .stop => .ok acc
    | .fail e => .error e
    | .event ev => extractGeneralLoop config (stripLine x) xs (acc ++ [ev])
    | .skip => extractGeneralLoop config (stripLine x) xs acc

/-- The function `_extract_general_dry_run_infos` on the raw log lines. -/
def extractGeneralDryRunInfos (config : Config) (rawLines : List String) :
    Except Err (List (Option String × Option String × Option String)) :=
  match rawLines with
  | [] => .ok []
  | x :: xs => extractGeneralLoop config (stripLine x) xs []

/-- Configuration for the C8 counterexample: the general pattern matches
every line, capturing the line as repository, but the pattern text defines
no `info` group. -/
def generalConfigC8 : Config :=
  { sectionConfigC4 with
    dry_run_info_pattern_general := fun l => some (some l, none, none),
    general_has_info := false }

/-- C8 counterexample: the claim says a matching line is still recorded as
an event with the omitted field absent; the code instead fails, because
Python raises IndexError when `match.group` is called with a group name the
pattern does not define. -/
theorem general_omitted_group_counterexample :
    extractGeneralDryRunInfos generalConfigC8 ["x"] = .error .noSuchGroup := by
  rfl

/-- C8 amended: when the pattern defines all three named groups, a matching
line is recorded as an event whose fields are exactly the captured values,
each individually possibly absent (a defined group that did not participate
in the match); a pattern that omits one of the three groups entirely makes
the extractor fail with the no-such-group error instead. -/
theorem general_event_recorded (config : Config) (l : String) (rem : List String)
    (acc : List (Option String × Option String × Option String))
    (rcap bcap icap : Option String)
    (hr : config.general_has_repository_name = true)
    (hb : config.general_has_branch_name = true)
    (hi : config.general_has_info = true)
    (hl : l ≠ "")
    (hm : config.dry_run_info_pattern_general l = some (rcap, bcap, icap)) :
    extractGeneralLoop config l rem acc =
      (match rem with
       | [] => .ok (acc ++ [(rcap, bcap, icap)])
       | x :: xs => extractGeneralLoop config (stripLine x) xs (acc ++ [(rcap, bcap, icap)])) := by
  have hstep : generalStep config l = .event (rcap, bcap, icap) := by
    simp [generalStep, hl, hm, groupGet, hr, hb, hi]
  cases rem with
  | nil => simp [extractGeneralLoop, hstep]
  | cons x xs => simp [extractGeneralLoop, hstep]

/-- Configuration for the C8 amended-claim concrete run: same matcher, but
all three groups defined; the branch and info groups simply never
participate. -/
def generalConfigC8w : Config :=
  { sectionConfigC4 with
    dry_run_info_pattern_general := fun l => some (some l, none, none) }

theorem general_event_recorded_witness :
    extractGeneralLoop generalConfigC8w ("x") [] [] =
      .ok [(some ("x"), none, none)] := by
  have h := general_event_recorded generalConfigC8w ("x") [] [] (some ("x")) none none
    rfl rfl rfl (by decide) rfl
  exact h.trans rfl

/-- Python `value or "N/A"` as used in `_process_branches_lists`: the `or`
operator substitutes the fallback when the value is `None` or a falsy
(empty) string. -/
def pyOrDefault (v : Option String) (d : String) : String :=
  match v with
  | none => d
  | some s => if s = "" then d else s

/-- A branch object of a synthetic autoclosed document, as denoted by the
constructed JSON text with its two fields prTitle and result. -/
structure SyntheticBranch where
  prTitle : String
  result : String
  deriving DecidableEq, Repr

/-- The body merged into a per-repository document by `**json.loads(...)` in
`_process_branches_lists`.  A real section document carries the abstract
parse result of the reassembled section body; a synthetic autoclosed
document carries the single-branch `branchesInformation` list its
constructed JSON text denotes (the string building and reparsing round-trip
is collapsed to the denoted value, which is faithful whenever the
interpolated title and repository contain no JSON metacharacters). -/
inductive ItemBody (β : Type) where
  | fromSection (body : β) : ItemBody β
  | fromAutoclosed (branchesInformation : List SyntheticBranch) : ItemBody β
  deriving DecidableEq, Repr

/-- First loop of `_process_branches_lists`: for each sealed section, strip
the timestamp prefix from every line (`timestampSub` is the abstract
`re.sub(timestamp_pattern, "", line)`), reassemble the body in braces, parse
it through the abstract `json.loads` (`jsonLoads`, `none` being a JSON
decode error), and emit the documents in section order. -/
def processSections {β : Type} (jsonLoads : String → Option β)
    (timestampSub : String → String) :
    List (String × List String) → Except Err (List (String × ItemBody β))
  | [] => .ok []
  | (repository, lines) :: rest =>
    match jsonLoads ("\x7b" ++ String.join (lines.map (fun line => timestampSub line)) ++ "\x7d") with
    | none => .error .sectionBodyParse
    | some body =>
      match processSections jsonLoads timestampSub rest with
      | .error e => .error e
      | .ok items => .ok ((repository, ItemBody.fromSection body) :: items)

/-- Second loop of `_process_branches_lists`: one synthetic document per
autoclosed record, in extraction order, with result code "discarded" and
the falsy-defaulted title and repository. -/
def syntheticItems {β : Type} :
    List (Option String × Option String) → List (String × ItemBody β)
  | [] => []
  | (repository, prTitle) :: rest =>
    (pyOrDefault repository ("N/A"),
        ItemBody.fromAutoclosed [⟨pyOrDefault prTitle ("N/A"), ("discarded")⟩]) ::
      syntheticItems rest

/-- The function `_process_branches_lists`: the real section documents
followed by the synthetic autoclosed documents (the `"items"` list of the
returned object). -/
def processBranchesLists {β : Type} (jsonLoads : String → Option β)
    (timestampSub : String → String)
    (relevantSections : List (String × List String))
    (autoclosedBranches : List (Option String × Option String)) :
    Except Err (List (String × ItemBody β)) :=
  match processSections jsonLoads timestampSub relevantSections with
  | .error e => .error e
  | .ok items => .ok (items ++ syntheticItems autoclosedBranches)

theorem processSections_ok {β : Type} (jsonLoads : String → Option β)
    (timestampSub : String → String) :
    ∀ (sections : List (String × List String)) (items : List (String × ItemBody β)),
      processSections jsonLoads timestampSub sections = .ok items →
      items.map Prod.fst = sections.map Prod.fst ∧
      ∀ p ∈ items, ∃ body, p.2 = ItemBody.fromSection body := by
  intro sections
  induction sections with
  | nil =>
    intro items h
    cases h
    exact ⟨rfl, by simp⟩
  | cons s rest ih =>
    intro items h
    obtain ⟨repository, lines⟩ := s
    simp only [processSections] at h
    cases hj : jsonLoads ("\x7b" ++ String.join (lines.map (fun line => timestampSub line)) ++ "\x7d") with
    | none =>
      rw [hj] at h
      cases h
    | some body =>
      rw [hj] at h
      cases hrest : processSections jsonLoads timestampSub rest with
      | error e =>
        rw [hrest] at h
        cases h
      | ok restItems =>
        rw [hrest] at h
        cases h
        obtain ⟨hmap, hbodies⟩ := ih restItems hrest
        refine ⟨by simp [hmap], ?_⟩
        intro p hp
        rcases List.mem_cons.mp hp with h1 | h2
        · subst h1
          exact ⟨body, rfl⟩
        · exact hbodies p h2

theorem syntheticItems_eq_map {β : Type}
    (autoclosedBranches : List (Option String × Option String)) :
    syntheticItems (β := β) autoclosedBranches =
      autoclosedBranches.map (fun rb =>
        (pyOrDefault rb.1 ("N/A"),
          ItemBody.fromAutoclosed [⟨pyOrDefault rb.2 ("N/A"), ("discarded")⟩])) := by
  induction autoclosedBranches with
  | nil => rfl
  | cons rb rest ih =>
    obtain ⟨repository, prTitle⟩ := rb
    simp [syntheticItems, ih]

/-- C7 counterexample: a present-but-empty title.  Under the claim, "N/A" is
substituted only when the title is absent, so the synthetic document for the
record (some "r", some "") would carry the empty title; the code evaluates
the Python expression `prTitle or "N/A"`, whose `or` also replaces the falsy
empty string, so the document carries "N/A". -/
theorem synthetic_empty_title_counterexample :
    processBranchesLists (β := Unit) (fun _ => some ()) (fun s => s) []
        [(some ("r"), some (""))] =
      .ok [(("r"), ItemBody.fromAutoclosed [⟨("N/A"), ("discarded")⟩])] := by
  rfl

/-- C7 amended: a successful decode consists of the real per-repository
section documents first, in extraction order (one per section, carrying a
parsed section body), followed by one synthetic document per autoclosed
record in extraction order, with result code "discarded" and with the
literal "N/A" substituted for an absent or empty title, the repository
likewise defaulting to "N/A" when absent or empty. -/
theorem process_branches_order {β : Type} (jsonLoads : String → Option β)
    (timestampSub : String → String)
    (relevantSections : List (String × List String))
    (autoclosedBranches : List (Option String × Option String))
    (out : List (String × ItemBody β))
    (hok : processBranchesLists jsonLoads timestampSub relevantSections autoclosedBranches
        = .ok out) :
    ∃ realItems,
      processSections jsonLoads timestampSub relevantSections = .ok realItems ∧
      realItems.map Prod.fst = relevantSections.map Prod.fst ∧
      (∀ p ∈ realItems, ∃ body, p.2 = ItemBody.fromSection body) ∧
      out = realItems ++
        autoclosedBranches.map (fun rb =>
          (pyOrDefault rb.1 ("N/A"),
            ItemBody.fromAutoclosed [⟨pyOrDefault rb.2 ("N/A"), ("discarded")⟩])) := by
  unfold processBranchesLists at hok
  cases hsec : processSections jsonLoads timestampSub relevantSections with
  | error e =>
    rw [hsec] at hok
    cases hok
  | ok realItems =>
    rw [hsec] at hok
    obtain ⟨hmap, hbodies⟩ :=
      processSections_ok jsonLoads timestampSub relevantSections realItems hsec
    refine ⟨realItems, rfl, hmap, hbodies, ?_⟩
    rw [← syntheticItems_eq_map]
    exact (Except.ok.inj hok).symm

theorem process_branches_order_witness :
    ∃ realItems,
      processSections (β := Unit) (fun _ => some ()) (fun s => s) [] = .ok realItems ∧
      realItems.map Prod.fst = ([] : List (String × List String)).map Prod.fst ∧
      (∀ p ∈ realItems, ∃ body, p.2 = ItemBody.fromSection body) ∧
      ([(("N/A"), ItemBody.fromAutoclosed [⟨("N/A"), ("discarded")⟩])] :
          List (String × ItemBody Unit)) =
        realItems ++ [((none : Option String), (none : Option String))].map (fun rb =>
          (pyOrDefault rb.1 ("N/A"),
            ItemBody.fromAutoclosed [⟨pyOrDefault rb.2 ("N/A"), ("discarded")⟩])) :=
  process_branches_order (fun _ => some ()) (fun s => s) [] [(none, none)]
    [(("N/A"), ItemBody.fromAutoclosed [⟨("N/A"), ("discarded")⟩])] rfl

theorem findLoop_blank (config : Config) (l : String) (rem : List String)
    (sections : List (String × List String)) (repositoryName : Option String)
    (state : Option (String × List String)) (hl : l = "") :
    findLoop config l rem sections repositoryName state =
      finishScan sections repositoryName := by
  cases rem <;> simp [findLoop, findStep, hl]

theorem findLoop_truncate (config : Config) (rem : List String) :
    ∀ (l : String) (sections : List (String × List String))
      (repositoryName : Option String) (state : Option (String × List String)),
      findLoop config l rem sections repositoryName state =
        findLoop config l (rem.takeWhile (fun x => !(stripLine x == "")))
          sections repositoryName state := by
  induction rem with
  | nil =>
    intro l sections repositoryName state
    rfl
  | cons x xs ih =>
    intro l sections repositoryName state
    by_cases hx : stripLine x = ""
    · have ht : (x :: xs).takeWhile (fun y => !(stripLine y == "")) = [] := by
        simp [List.takeWhile_cons, hx]
      rw [ht]
      cases hstep : findStep config l sections repositoryName state with
      | halt res => simp [findLoop, hstep]
      | next s2 rn2 st2 =>
        simp only [findLoop, hstep]
        exact findLoop_blank config (stripLine x) xs s2 rn2 st2 hx
    · have ht : (x :: xs).takeWhile (fun y => !(stripLine y == "")) =
          x :: xs.takeWhile (fun y => !(stripLine y == "")) := by
        simp [List.takeWhile_cons, hx]
      rw [ht]
      cases hstep : findStep config l sections repositoryName state with
      | halt res => simp [findLoop, hstep]
      | next s2 rn2 st2 =>
        simp only [findLoop, hstep]
        exact ih (stripLine x) s2 rn2 st2

theorem extractGeneralLoop_blank (config : Config) (l : String) (rem : List String)
    (acc : List (Option String × Option String × Option String)) (hl : l = "") :
    extractGeneralLoop config l rem acc = .ok acc := by
  cases rem <;> simp [extractGeneralLoop, generalStep, hl]

theorem extractGeneralLoop_truncate (config : Config) (rem : List String) :
    ∀ (l : String) (acc : List (Option String × Option String × Option String)),
      extractGeneralLoop config l rem acc =
        extractGeneralLoop config l (rem.takeWhile (fun x => !(stripLine x == ""))) acc := by
  induction rem with
  | nil =>
    intro l acc
    rfl
  | cons x xs ih =>
    intro l acc
    by_cases hx : stripLine x = ""
    · have ht : (x :: xs).takeWhile (fun y => !(stripLine y == "")) = [] := by
        simp [List.takeWhile_cons, hx]
      rw [ht]
      cases hstep : generalStep config l with
      | stop => simp [extractGeneralLoop, hstep]
      | fail e => simp [extractGeneralLoop, hstep]
      | event ev =>
        simp only [extractGeneralLoop, hstep]
        exact extractGeneralLoop_blank config (stripLine x) xs _ hx
      | skip =>
        simp only [extractGeneralLoop, hstep]
        exact extractGeneralLoop_blank config (stripLine x) xs _ hx
    · have ht : (x :: xs).takeWhile (fun y => !(stripLine y == "")) =
          x :: xs.takeWhile (fun y => !(stripLine y == "")) := by
        simp [List.takeWhile_cons, hx]
      rw [ht]
      cases hstep : generalStep config l with
      | stop => simp [extractGeneralLoop, hstep]
      | fail e => simp [extractGeneralLoop, hstep]
      | event ev =>
        simp only [extractGeneralLoop, hstep]
        exact ih (stripLine x) _
      | skip =>
        simp only [extractGeneralLoop, hstep]
        exact ih (stripLine x) _

/-- C10 amended: the section-extraction and dry-run-event scans never look
past the first line that is blank after stripping (their whole outcome on
any log equals the outcome on the prefix before the first blank line), and
the autoclosed scan stops at a blank line only when it reaches it at the
top of its loop; blank lines consumed while advancing the configured offset
do not stop that scan, so lines after the first blank line can still be
examined there and autoclosed markers after it can still produce records. -/
theorem blank_line_stops_scans (config : Config) (rawLines : List String)
    (fuel : Nat) (rem : List String) (acc : List (Option String × Option String)) :
    findBranchesLists config rawLines =
      findBranchesLists config (rawLines.takeWhile (fun x => !(stripLine x == ""))) ∧
    extractGeneralDryRunInfos config rawLines =
      extractGeneralDryRunInfos config (rawLines.takeWhile (fun x => !(stripLine x == ""))) ∧
    extractAutoclosedLoop config (fuel + 1) (some ("")) rem acc = some (.ok acc) := by
  refine ⟨?_, ?_, rfl⟩
  · cases rawLines with
    | nil => rfl
    | cons x xs =>
      by_cases hx : stripLine x = ""
      · have ht : (x :: xs).takeWhile (fun y => !(stripLine y == "")) = [] := by
          simp [List.takeWhile_cons, hx]
        rw [ht]
        simp [findBranchesLists, hx]
      · have ht : (x :: xs).takeWhile (fun y => !(stripLine y == "")) =
            x :: xs.takeWhile (fun y => !(stripLine y == "")) := by
          simp [List.takeWhile_cons, hx]
        rw [ht]
        simp only [findBranchesLists, if_neg hx]
        exact findLoop_truncate config xs (stripLine x) [] none none
  · cases rawLines with
    | nil => rfl
    | cons x xs =>
      by_cases hx : stripLine x = ""
      · have ht : (x :: xs).takeWhile (fun y => !(stripLine y == "")) = [] := by
          simp [List.takeWhile_cons, hx]
        rw [ht]
        simp only [extractGeneralDryRunInfos]
        exact extractGeneralLoop_blank config (stripLine x) xs [] hx
      · have ht : (x :: xs).takeWhile (fun y => !(stripLine y == "")) =
            x :: xs.takeWhile (fun y => !(stripLine y == "")) := by
          simp [List.takeWhile_cons, hx]
        rw [ht]
        simp only [extractGeneralDryRunInfos]
        exact extractGeneralLoop_truncate config xs (stripLine x) []

/-- Configuration for the C10 counterexample: offset 2, the marker pattern
matches "M1" and "M2" capturing the line, the title pattern matches every
line capturing the line. -/
def autoclosedConfigC10 : Config :=
  { sectionConfigC4 with
    dry_run_info_pattern_autoclosed :=
      fun l => if l == ("M1") || l == ("M2") then some (some l) else none,
    dry_run_info_autoclosed_pr_title_line_number := 2,
    dry_run_info_autoclosed_pr_title_pattern := fun l => some (some l) }

/-- C10 counterexample: in the log ["M1", "", "M2", "T2", "X"] the second
autoclosed marker "M2" occurs after the first blank line, yet it produces
the record (some "M2", some "X"): the claim that no line after the first
blank line is ever examined and that autoclosed markers after it are absent
from the result is false for the autoclosed scan, whose offset advance skips
the blank line. -/
theorem blank_line_counterexample :
    extractAutoclosedDryRunInfos autoclosedConfigC10 10 ["M1", "", "M2", "T2", "X"] =
      some (.ok [(some ("M1"), some ("M2")), (some ("M2"), some ("X"))]) := by
  rfl

end DryRunovate
